import Mathlib

/-!
Verification of the open-fitter deformation core.

This file gives a shallow embedding, over the real numbers, of the four core
modules of the repository — `spatial_utils.py`, `rbf_core.py`,
`field_generator.py` and `deformation_pipeline.py` — and proves/refutes the
frozen specification claims about them.

Modelling conventions:
* an N×3 numpy array of points is a `List V3` (`V3 := Fin 3 → ℝ`) in the
  operational models, and a `Fin N → V3` / `Matrix` in the algebraic model of
  the RBF linear system;
* numpy/scipy library calls that the repository merely invokes (the KD-tree
  query, `np.linalg.solve`, `np.linalg.lstsq`) are modelled by their
  documented input/output behaviour: the KD-tree nearest query is the exact
  minimum distance to the indexed points, `solve` is a parameter returning
  `none` exactly when it would raise `LinAlgError`, `lstsq` is a total
  parameter;
* Python exceptions are modelled with `Option`/`Except`: a `none`/`.error`
  result is a raised exception, a `some`/`.ok` result is a normal return;
* Python `int(x)` (truncation toward zero) is `pyInt`; `1 << n` on a negative
  `n` raises `ValueError`, which the embedding reflects by returning `none`.
-/

open scoped Classical

set_option linter.unusedVariables false

noncomputable section

/-- A 3-D point: one row of an N×3 numpy array. -/
abbrev V3 : Type := Fin 3 → ℝ

/-- Euclidean distance between two 3-D points (what `scipy.spatial.distance.cdist`
and `cKDTree.query` compute). -/
def dist3 (p q : V3) : ℝ :=
  Real.sqrt (∑ i, (p i - q i) ^ 2)

/-- Python `int(x)`: truncation toward zero. -/
def pyInt (x : ℝ) : ℤ :=
  if 0 ≤ x then ⌊x⌋ else ⌈x⌉

/-- `np.min` over a (nonempty) 1-D array given as a list; the `[]` case is a
junk value, matching numpy which raises on an empty reduction. -/
def minD : List ℝ → ℝ
  | [] => 0
  | x :: xs => xs.foldl min x

namespace SpatialUtils

/-- `SpatialUtils.find_nearest` for a single query point: the distance from
`q` to its nearest vertex of the indexed set (`cKDTree.query(q, k=1)[0]`).
The index output of the query is not used by any code path under
verification and is not modelled. -/
def nearestDist (verts : List V3) (q : V3) : ℝ :=
  minD (verts.map (dist3 q))

/-- `SpatialUtils.find_nearest` on a batch of query points (distance part). -/
def find_nearest (verts : List V3) (qs : List V3) : List ℝ :=
  qs.map (nearestDist verts)

/-- The boolean mask `distances <= max_distance` computed by
`filter_points_by_distance`. -/
def maskOf (verts : List V3) (qs : List V3) (maxDistance : ℝ) : List Bool :=
  (find_nearest verts qs).map (fun d => decide (d ≤ maxDistance))

/-- Numpy boolean-mask indexing `arr[mask]`: keep the entries whose mask bit
is `true`, in order. -/
def maskSelect {α : Type} : List α → List Bool → List α
  | [], _ => []
  | _ :: _, [] => []
  | a :: as, b :: bs => if b then a :: maskSelect as bs else maskSelect as bs

/-- `SpatialUtils.filter_points_by_distance`: returns `(query_points[mask], mask)`
where `mask = (nearest distances) <= max_distance`. -/
def filter_points_by_distance (verts : List V3) (qs : List V3)
    (maxDistance : ℝ) : List V3 × List Bool :=
  let mask := maskOf verts qs maxDistance
  (maskSelect qs mask, mask)

/-- Selecting with the mask of a predicate is exactly `List.filter`. -/
theorem maskSelect_map_eq_filter {α : Type} (p : α → Bool) :
    ∀ l : List α, maskSelect l (l.map p) = l.filter p := by
  intro l
  induction l with
  | nil => rfl
  | cons a as ih =>
    by_cases h : p a
    · simp [maskSelect, List.filter, h, ih]
    · simp only [List.map_cons, maskSelect, List.filter, h]
      simpa [h] using ih

/-- `getD` through a `map`, for indices in range. -/
theorem getD_map_bool {α : Type} (p : α → Bool) (d : α) :
    ∀ (l : List α) (i : ℕ), i < l.length → (l.map p).getD i false = p (l.getD i d) := by
  intro l
  induction l with
  | nil => intro i hi; simp at hi
  | cons a as ih =>
    intro i hi
    cases i with
    | zero => simp [List.getD]
    | succ j =>
      have hj : j < as.length := by simpa using hi
      simpa [List.getD] using ih j hj

end SpatialUtils

/-- Claim C7: for every SpatialIndex over `N ≥ 1` points, every query list and
every threshold, `filter_points_by_distance` returns the in-order subsequence
of the query points whose nearest-indexed-point distance is `≤ max_distance`,
together with a boolean mask of the query list's length whose `i`-th entry is
`true` exactly when query point `i`'s nearest distance is `≤ max_distance`;
in particular every returned point has nearest distance `≤ max_distance`. -/
theorem SpatialUtils.filter_points_by_distance_correct
    (verts : List V3) (qs : List V3) (t : ℝ) (hN : verts ≠ []) :
    (SpatialUtils.filter_points_by_distance verts qs t).1 =
      qs.filter (fun q => decide (SpatialUtils.nearestDist verts q ≤ t)) ∧
    (SpatialUtils.filter_points_by_distance verts qs t).2.length = qs.length ∧
    (∀ i, i < qs.length →
      ((SpatialUtils.filter_points_by_distance verts qs t).2.getD i false = true ↔
        SpatialUtils.nearestDist verts (qs.getD i (fun _ => 0)) ≤ t)) ∧
    (∀ q ∈ (SpatialUtils.filter_points_by_distance verts qs t).1,
      SpatialUtils.nearestDist verts q ≤ t) := by
  have hmask : (SpatialUtils.filter_points_by_distance verts qs t).2 =
      qs.map (fun q => decide (SpatialUtils.nearestDist verts q ≤ t)) := by
    simp [SpatialUtils.filter_points_by_distance, SpatialUtils.maskOf,
      SpatialUtils.find_nearest, List.map_map, Function.comp_def]
  have hfst : (SpatialUtils.filter_points_by_distance verts qs t).1 =
      qs.filter (fun q => decide (SpatialUtils.nearestDist verts q ≤ t)) := by
    have h1 : (SpatialUtils.filter_points_by_distance verts qs t).1 =
        SpatialUtils.maskSelect qs
          (qs.map (fun q => decide (SpatialUtils.nearestDist verts q ≤ t))) := by
      simp [SpatialUtils.filter_points_by_distance, SpatialUtils.maskOf,
        SpatialUtils.find_nearest, List.map_map, Function.comp_def]
    rw [h1, SpatialUtils.maskSelect_map_eq_filter]
  refine ⟨hfst, ?_, ?_, ?_⟩
  · rw [hmask]; simp
  · intro i hi
    rw [hmask, SpatialUtils.getD_map_bool _ (fun _ => (0 : ℝ)) qs i hi]
    exact decide_eq_true_iff
  · intro q hq
    rw [hfst] at hq
    have := List.of_mem_filter hq
    simpa using this

/-- Witness for C7 at a concrete instance: index on one point (the origin),
one query at distance 2, threshold 1; the filtered result is empty. -/
theorem SpatialUtils.filter_points_by_distance_correct_witness :
    ([fun _ => (0 : ℝ)] : List V3) ≠ [] ∧
    (SpatialUtils.filter_points_by_distance [fun _ => (0 : ℝ)]
        [fun _ => (0 : ℝ)] 1).2.length = 1 := by
  refine ⟨by simp, ?_⟩
  exact (SpatialUtils.filter_points_by_distance_correct
    [fun _ => (0 : ℝ)] [fun _ => (0 : ℝ)] 1 (by simp)).2.1

namespace RBFCore

/-- Multi-Quadratic Biharmonic RBF kernel: `sqrt(r^2 + epsilon^2)`
(`RBFCore._kernel_func`). -/
def kernelFn (eps r : ℝ) : ℝ :=
  Real.sqrt (r ^ 2 + eps ^ 2)

/-- The solver's instance state: configuration plus the results stored by
`fit` (all `None` right after `__init__`). Weight matrices are row-major
lists of rows. -/
structure State where
  epsilon : ℝ
  smoothing : ℝ
  weights : Option (List (List ℝ)) := none
  polynomial_weights : Option (List (List ℝ)) := none
  control_points : Option (List V3) := none

/-- `RBFCore.__init__(epsilon, smoothing)`. -/
def init (epsilon smoothing : ℝ) : State :=
  { epsilon := epsilon, smoothing := smoothing }

/-- One row of the polynomial design matrix `P = (1, x, y, z)`. -/
def Prow (s : V3) : List ℝ :=
  [1, s 0, s 1, s 2]

/-- Row `i` of the kernel (Gram) block `phi = kernel(cdist(src, src))`, after
the regularization `phi += eye(N) * smoothing` that `fit` applies only when
`smoothing > 0`. -/
def phiFitRow (eps sm : ℝ) (src : List V3) (i : ℕ) (si : V3) : List ℝ :=
  src.mapIdx (fun j sj => kernelFn eps (dist3 si sj) + if 0 < sm ∧ i = j then sm else 0)

/-- The assembled `(N+4)×(N+4)` saddle-point matrix
`A = [[Phi, P], [P^T, 0]]`, row-major. -/
def fitA (eps sm : ℝ) (src : List V3) : List (List ℝ) :=
  (src.mapIdx (fun i si => phiFitRow eps sm src i si ++ Prow si)) ++
    [ (src.map (fun _ => (1 : ℝ))) ++ [0, 0, 0, 0],
      (src.map (fun s => s 0)) ++ [0, 0, 0, 0],
      (src.map (fun s => s 1)) ++ [0, 0, 0, 0],
      (src.map (fun s => s 2)) ++ [0, 0, 0, 0] ]

/-- The right-hand side `b = [displacements; 0]` with three columns
(`displacements = target_points - source_points`). -/
def fitB (src tgt : List V3) : List (List ℝ) :=
  (List.zipWith (fun t s => [t 0 - s 0, t 1 - s 1, t 2 - s 2]) tgt src) ++
    [[0, 0, 0], [0, 0, 0], [0, 0, 0], [0, 0, 0]]

/-- `A + c * eye(A.shape[0])`. -/
def addScaledId (A : List (List ℝ)) (c : ℝ) : List (List ℝ) :=
  A.mapIdx (fun i row => row.mapIdx (fun j a => a + if i = j then c else 0))

/-- `RBFCore.fit`, with the two numpy linear-algebra routines it calls as
explicit parameters: `solveFn` models `np.linalg.solve` (`none` models the
raised `LinAlgError` on a singular system), `lstsqFn` models
`np.linalg.lstsq` (total). On `LinAlgError`, fit re-solves
`A + 1e-6 * I` in the least-squares sense; either way it stores
`control_points`, `weights = x[:N]` and `polynomial_weights = x[N:]`. -/
def fit (solveFn : List (List ℝ) → List (List ℝ) → Option (List (List ℝ)))
    (lstsqFn : List (List ℝ) → List (List ℝ) → List (List ℝ))
    (st : State) (src tgt : List V3) : State :=
  let A := fitA st.epsilon st.smoothing src
  let b := fitB src tgt
  let x := match solveFn A b with
    | some x => x
    | none => lstsqFn (addScaledId A (1 / 1000000)) b
  { st with
      control_points := some src
      weights := some (x.take src.length)
      polynomial_weights := some (x.drop src.length) }

/-- Sum of elementwise products of two lists (one entry of a numpy `dot`). -/
def dotL (a b : List ℝ) : ℝ :=
  (List.zipWith (fun x y => x * y) a b).sum

/-- Column `c` of a row-major matrix (out-of-range entries read as 0,
matching the shape contract of the stored weights). -/
def colOf (m : List (List ℝ)) (c : ℕ) : List ℝ :=
  m.map (fun row => row.getD c 0)

/-- The displacement `predict` computes at one query point:
`phi(cdist(q, ctrl)) @ weights + [1,qx,qy,qz] @ polynomial_weights`. -/
def predictDispRow (eps : ℝ) (ctrl : List V3) (w pw : List (List ℝ)) (q : V3) : List ℝ :=
  (List.range 3).map (fun c =>
    dotL (ctrl.map (fun s => kernelFn eps (dist3 q s))) (colOf w c) +
      dotL (Prow q) (colOf pw c))

/-- `RBFCore.predict`: raises (`.error`) the not-fitted usage error when
`weights is None`; otherwise returns `(deformed_vertices, displacements)`
with `deformed_vertices = mesh_vertices + displacements`. The second
`.error` branch models the `TypeError` Python would raise were
`control_points`/`polynomial_weights` unset while `weights` is set; it is
unreachable through `init`/`fit`. -/
def predict (st : State) (qs : List V3) :
    Except String (List (List ℝ) × List (List ℝ)) :=
  match st.weights with
  | none => .error "RBF weights not computed. Call fit() first."
  | some w =>
    match st.control_points, st.polynomial_weights with
    | some ctrl, some pw =>
      let disps := qs.map (predictDispRow st.epsilon ctrl w pw)
      let deformed := List.zipWith
        (fun q d => [q 0 + d.getD 0 0, q 1 + d.getD 1 0, q 2 + d.getD 2 0]) qs disps
      .ok (deformed, disps)
    | _, _ => .error "invalid solver state"

end RBFCore

/-- Claim C1: for equal-length N×3 point sets, if the direct solve of the
saddle-point system reports singularity (`np.linalg.LinAlgError`, i.e.
`solveFn _ _ = none`), `fit` falls back to the least-squares solve of the
regularized system `A + 1e-6 * I` and completes normally, storing weights
with N rows and polynomial weights with 4 rows (each row of width 3, by the
least-squares output shape contract); the singularity error is never
propagated and the stored result never has the wrong size. -/
theorem RBFCore.fit_singular_fallback
    (solveFn : List (List ℝ) → List (List ℝ) → Option (List (List ℝ)))
    (lstsqFn : List (List ℝ) → List (List ℝ) → List (List ℝ))
    (st : RBFCore.State) (src tgt : List V3)
    (hlen : src.length = tgt.length)
    (hsing : solveFn (RBFCore.fitA st.epsilon st.smoothing src) (RBFCore.fitB src tgt) = none)
    (hshape : (lstsqFn (RBFCore.addScaledId (RBFCore.fitA st.epsilon st.smoothing src) (1 / 1000000))
        (RBFCore.fitB src tgt)).length = src.length + 4)
    (hrows : ∀ r ∈ lstsqFn (RBFCore.addScaledId (RBFCore.fitA st.epsilon st.smoothing src) (1 / 1000000))
        (RBFCore.fitB src tgt), r.length = 3) :
    (RBFCore.fit solveFn lstsqFn st src tgt).weights =
      some ((lstsqFn (RBFCore.addScaledId (RBFCore.fitA st.epsilon st.smoothing src) (1 / 1000000))
        (RBFCore.fitB src tgt)).take src.length) ∧
    (∃ w, (RBFCore.fit solveFn lstsqFn st src tgt).weights = some w ∧
      w.length = src.length ∧ ∀ r ∈ w, r.length = 3) ∧
    (∃ pw, (RBFCore.fit solveFn lstsqFn st src tgt).polynomial_weights = some pw ∧
      pw.length = 4 ∧ ∀ r ∈ pw, r.length = 3) := by
  have hw : (RBFCore.fit solveFn lstsqFn st src tgt).weights =
      some ((lstsqFn (RBFCore.addScaledId (RBFCore.fitA st.epsilon st.smoothing src) (1 / 1000000))
        (RBFCore.fitB src tgt)).take src.length) := by
    simp [RBFCore.fit, hsing]
  have hp : (RBFCore.fit solveFn lstsqFn st src tgt).polynomial_weights =
      some ((lstsqFn (RBFCore.addScaledId (RBFCore.fitA st.epsilon st.smoothing src) (1 / 1000000))
        (RBFCore.fitB src tgt)).drop src.length) := by
    simp [RBFCore.fit, hsing]
  refine ⟨hw, ⟨_, hw, ?_, ?_⟩, ⟨_, hp, ?_, ?_⟩⟩
  · rw [List.length_take, hshape]
    omega
  · intro r hr
    exact hrows r (List.mem_of_mem_take hr)
  · rw [List.length_drop, hshape]
    omega
  · intro r hr
    exact hrows r (List.mem_of_mem_drop hr)

/-- Concrete linear-algebra backends and points used by witnesses. -/
def solveNone : List (List ℝ) → List (List ℝ) → Option (List (List ℝ)) :=
  fun _ _ => none

/-- A least-squares stand-in returning an all-zero solution of the right
shape (rows = rows of the square system matrix, width 3). -/
def lstsqZero : List (List ℝ) → List (List ℝ) → List (List ℝ) :=
  fun A _ => A.map (fun _ => [0, 0, 0])

/-- The origin, as a concrete 3-D point. -/
def pt0 : V3 := fun _ => 0

/-- Witness for C1: a one-point fit through the singular path with the
concrete backends; the fallback result has 1 weight row and 4 polynomial
rows. -/
theorem RBFCore.fit_singular_fallback_witness :
    ([pt0].length = [pt0].length) ∧
    (solveNone (RBFCore.fitA (RBFCore.init 1 0).epsilon (RBFCore.init 1 0).smoothing [pt0])
      (RBFCore.fitB [pt0] [pt0]) = none) ∧
    (∃ w, (RBFCore.fit solveNone lstsqZero (RBFCore.init 1 0) [pt0] [pt0]).weights = some w ∧
      w.length = [pt0].length ∧ ∀ r ∈ w, r.length = 3) := by
  have hshape : (lstsqZero (RBFCore.addScaledId
      (RBFCore.fitA (RBFCore.init 1 0).epsilon (RBFCore.init 1 0).smoothing [pt0]) (1 / 1000000))
      (RBFCore.fitB [pt0] [pt0])).length = [pt0].length + 4 := by
    simp [lstsqZero, RBFCore.addScaledId, RBFCore.fitA]
  have hrows : ∀ r ∈ lstsqZero (RBFCore.addScaledId
      (RBFCore.fitA (RBFCore.init 1 0).epsilon (RBFCore.init 1 0).smoothing [pt0]) (1 / 1000000))
      (RBFCore.fitB [pt0] [pt0]), r.length = 3 := by
    intro r hr
    simp only [lstsqZero, List.mem_map] at hr
    obtain ⟨_, _, rfl⟩ := hr
    rfl
  exact ⟨rfl, rfl,
    (RBFCore.fit_singular_fallback solveNone lstsqZero (RBFCore.init 1 0) [pt0] [pt0]
      rfl rfl hshape hrows).2.1⟩

/-- Claim C6: calling `predict` before any `fit` returns the not-fitted
usage error naming the missing `fit()` call; after any `fit`, `predict` on
any query list returns normally (in particular never that error). -/
theorem RBFCore.predict_unfitted_error (eps sm : ℝ) (qs qs' : List V3)
    (solveFn : List (List ℝ) → List (List ℝ) → Option (List (List ℝ)))
    (lstsqFn : List (List ℝ) → List (List ℝ) → List (List ℝ))
    (st : RBFCore.State) (src tgt : List V3) :
    RBFCore.predict (RBFCore.init eps sm) qs =
      .error "RBF weights not computed. Call fit() first." ∧
    ∃ r, RBFCore.predict (RBFCore.fit solveFn lstsqFn st src tgt) qs' = .ok r := by
  constructor
  · rfl
  · exact ⟨_, rfl⟩

/-- Claim C8: `fit` is deterministic: the state it produces depends only on
the configuration (`epsilon`, `smoothing`) and the inputs, never on
previously stored weights; hence fitting twice in a row with identical
inputs leaves the state exactly as after the first fit. -/
theorem RBFCore.fit_deterministic
    (solveFn : List (List ℝ) → List (List ℝ) → Option (List (List ℝ)))
    (lstsqFn : List (List ℝ) → List (List ℝ) → List (List ℝ))
    (s₁ s₂ : RBFCore.State) (src tgt : List V3)
    (heps : s₁.epsilon = s₂.epsilon) (hsm : s₁.smoothing = s₂.smoothing) :
    RBFCore.fit solveFn lstsqFn s₁ src tgt = RBFCore.fit solveFn lstsqFn s₂ src tgt ∧
    RBFCore.fit solveFn lstsqFn (RBFCore.fit solveFn lstsqFn s₁ src tgt) src tgt =
      RBFCore.fit solveFn lstsqFn s₁ src tgt := by
  have key : ∀ t₁ t₂ : RBFCore.State, t₁.epsilon = t₂.epsilon → t₁.smoothing = t₂.smoothing →
      RBFCore.fit solveFn lstsqFn t₁ src tgt = RBFCore.fit solveFn lstsqFn t₂ src tgt := by
    intro t₁ t₂ he hs
    cases t₁
    cases t₂
    simp only at he hs
    simp [RBFCore.fit, he, hs]
  refine ⟨key s₁ s₂ heps hsm, ?_⟩
  exact key _ s₁ rfl rfl

/-- Witness for C8: two solvers with the same configuration fit the same
one-point data: identical resulting states. -/
theorem RBFCore.fit_deterministic_witness :
    ((RBFCore.init 1 0).epsilon = (RBFCore.init 1 0).epsilon) ∧
    RBFCore.fit solveNone lstsqZero (RBFCore.init 1 0) [pt0] [pt0] =
      RBFCore.fit solveNone lstsqZero (RBFCore.init 1 0) [pt0] [pt0] := by
  exact ⟨rfl,
    (RBFCore.fit_deterministic solveNone lstsqZero (RBFCore.init 1 0) (RBFCore.init 1 0)
      [pt0] [pt0] rfl rfl).1⟩

namespace RBFCore

/-- Size-indexed (algebraic) model of the fit system's kernel block:
`Phi[i,j] = kernel(|src_i - src_j|)` plus the diagonal `smoothing`
regularization applied only when `smoothing > 0`. -/
def phiMat {N : ℕ} (eps sm : ℝ) (src : Fin N → V3) : Matrix (Fin N) (Fin N) ℝ :=
  fun i j => kernelFn eps (dist3 (src i) (src j)) + if 0 < sm ∧ i = j then sm else 0

/-- The polynomial design matrix `P` of `fit`/`predict`: an M×4 matrix whose
first column is all ones and whose remaining columns are the coordinates. -/
def Pmat {M : ℕ} (pts : Fin M → V3) : Matrix (Fin M) (Fin 4) ℝ :=
  fun i => ![1, pts i 0, pts i 1, pts i 2]

/-- The assembled saddle-point matrix `A = [[Phi, P], [P^T, 0]]`. -/
def Amat {N : ℕ} (eps sm : ℝ) (src : Fin N → V3) :
    Matrix (Fin N ⊕ Fin 4) (Fin N ⊕ Fin 4) ℝ :=
  Matrix.fromBlocks (phiMat eps sm src) (Pmat src) (Matrix.transpose (Pmat src)) 0

/-- The right-hand side `b = [displacements; 0]`
(`displacements = target_points - source_points`). -/
def bMat {N : ℕ} (src tgt : Fin N → V3) : Matrix (Fin N ⊕ Fin 4) (Fin 3) ℝ :=
  fun r c =>
    match r with
    | Sum.inl i => tgt i c - src i c
    | Sum.inr _ => 0

/-- The displacement matrix `predict` computes at query points `q` from the
stored control points, weights and polynomial weights:
`kernel(cdist(q, ctrl)) @ weights + P(q) @ polynomial_weights`. -/
def predictDispM {M N : ℕ} (eps : ℝ) (ctrl : Fin N → V3)
    (w : Matrix (Fin N) (Fin 3) ℝ) (pw : Matrix (Fin 4) (Fin 3) ℝ)
    (q : Fin M → V3) : Matrix (Fin M) (Fin 3) ℝ :=
  (Matrix.of fun i j => kernelFn eps (dist3 (q i) (ctrl j))) * w + Pmat q * pw

end RBFCore

/-- Claim C2: with `smoothing = 0`, if `x` solves the saddle-point system
exactly (as the direct solve of a non-singular system does), then the fitted
model — weights `x[:N]`, polynomial weights `x[N:]` — predicts, at exactly
the stored control points, each control point's target position: the
interpolation property `predict(source_points) = target_points` (so the
claimed 1e-5 tolerance holds with margin zero in exact arithmetic). -/
theorem RBFCore.interpolation_exact {N : ℕ} (eps : ℝ) (src tgt : Fin N → V3)
    (x : Matrix (Fin N ⊕ Fin 4) (Fin 3) ℝ)
    (hx : RBFCore.Amat eps 0 src * x = RBFCore.bMat src tgt) :
    ∀ i c, src i c +
      RBFCore.predictDispM eps src (fun i c => x (Sum.inl i) c)
        (fun k c => x (Sum.inr k) c) src i c = tgt i c := by
  intro i c
  have h := congrFun (congrFun hx (Sum.inl i)) c
  simp only [Matrix.mul_apply, RBFCore.Amat, RBFCore.bMat, Fintype.sum_sum_type,
    Matrix.fromBlocks_apply₁₁, Matrix.fromBlocks_apply₁₂, RBFCore.phiMat] at h
  simp only [lt_self_iff_false, false_and, if_false, add_zero] at h
  simp only [RBFCore.predictDispM, Matrix.add_apply, Matrix.mul_apply, Matrix.of_apply]
  linarith

/-- The single control point at the origin, moved to `(1,0,0)`. -/
def srcW1 : Fin 1 → V3 := fun _ => pt0

/-- Deformed position of the witness control point. -/
def tgtW1 : Fin 1 → V3 := fun _ c => if c = 0 then 1 else 0

/-- An exact solution of the witness saddle-point system: zero RBF weights
and a constant polynomial term `(1,0,0)` (a pure translation is carried
entirely by the affine block). -/
def xW1 : Matrix (Fin 1 ⊕ Fin 4) (Fin 3) ℝ :=
  fun r c =>
    match r with
    | Sum.inl _ => 0
    | Sum.inr k => if k = 0 ∧ c = 0 then 1 else 0

/-- `xW1` solves the witness system exactly. -/
theorem xW1_solves : RBFCore.Amat 1 0 srcW1 * xW1 = RBFCore.bMat srcW1 tgtW1 := by
  ext r c
  cases r with
  | inl i =>
    simp only [Matrix.mul_apply, Fintype.sum_sum_type, RBFCore.Amat, RBFCore.bMat,
      Matrix.fromBlocks_apply₁₁, Matrix.fromBlocks_apply₁₂, RBFCore.phiMat, RBFCore.Pmat,
      xW1, srcW1, tgtW1, pt0, mul_zero, Finset.sum_const_zero, zero_add,
      Fin.sum_univ_four, Fin.sum_univ_one]
    fin_cases c <;> norm_num
  | inr k =>
    simp only [Matrix.mul_apply, Fintype.sum_sum_type, RBFCore.Amat, RBFCore.bMat,
      Matrix.fromBlocks_apply₂₁, Matrix.fromBlocks_apply₂₂, xW1,
      mul_zero, zero_mul, Finset.sum_const_zero, zero_add, add_zero,
      Matrix.zero_apply]

/-- Witness for C2: the one-point translation fit; the exact-solution
hypothesis holds, and prediction at the control point reproduces the target. -/
theorem RBFCore.interpolation_exact_witness :
    (RBFCore.Amat 1 0 srcW1 * xW1 = RBFCore.bMat srcW1 tgtW1) ∧
    (∀ i c, srcW1 i c +
      RBFCore.predictDispM 1 srcW1 (fun i c => xW1 (Sum.inl i) c)
        (fun k c => xW1 (Sum.inr k) c) srcW1 i c = tgtW1 i c) := by
  exact ⟨xW1_solves, RBFCore.interpolation_exact 1 srcW1 tgtW1 xW1 xW1_solves⟩

namespace FieldGenerator

/-- The configuration record: the `params` dictionary with the defaults that
`FieldGenerator.__init__` and `DeformationPipeline.__init__` supply through
`params.get`. -/
structure Params where
  base_grid_spacing : ℝ := 1 / 50
  surface_distance : ℝ := 1 / 10
  max_distance : ℝ := 1 / 5
  min_distance : ℝ := 1 / 200
  density_falloff : ℝ := 3
  rbf_epsilon : ℝ := 1 / 2
  rbf_smoothing : ℝ := 0
  bbox_margin : ℝ := 1 / 10

/-- The `inv_max_min_diff` cache computed in `__init__`:
`1.0 / (max_dist - min_dist) if max_dist > min_dist else 1.0`. Python float
division by zero raises, so the division is modelled as partial; the guard
makes the `none` case unreachable (part of claim C10). -/
def invMaxMinDiff (p : Params) : Option ℝ :=
  if p.min_distance < p.max_distance then
    if p.max_distance - p.min_distance = 0 then none
    else some (1 / (p.max_distance - p.min_distance))
  else some 1

/-- `FieldGenerator._get_adaptive_spacing`. Result values: `some 0` is the
first branch's `return 0`; `some ⊤` is `float('inf')`; `some (2 ^ level)` is
`1 << level`. A `none` models a raised exception: the `ValueError` of
`1 << level` for `level < 0` (reachable only with a negative
`density_falloff`), or the guarded-away `ZeroDivisionError` of the cache. -/
def getAdaptiveSpacing (p : Params) (distance : ℝ) : Option ℕ∞ :=
  if distance ≤ p.min_distance then some 0
  else if p.surface_distance < distance then some ⊤
  else
    match invMaxMinDiff p with
    | none => none
    | some inv =>
      let normalized := min 1 (max 0 ((distance - p.min_distance) * inv))
      let power := Real.sqrt normalized * p.density_falloff
      let level := pyInt (power + 1)
      if level < 0 then none else some ((2 : ℕ∞) ^ level.toNat)

/-- Modelled from claim C3's wording: for `d ≤ min_distance` "the level-0
threshold of 1 grid unit"; for `d > surface_distance` infinity; otherwise
`2 ^ level` grid units with
`level = floor(sqrt(normalized) * density_falloff) + 1` for the normalized
distance clamped to `[0, 1]`. -/
def adaptiveSpacingClaim (p : Params) (d : ℝ) : ℕ∞ :=
  if d ≤ p.min_distance then 1
  else if p.surface_distance < d then ⊤
  else
    let normalized := min 1 (max 0 ((d - p.min_distance) / (p.max_distance - p.min_distance)))
    (2 : ℕ∞) ^ (⌊Real.sqrt normalized * p.density_falloff⌋ + 1).toNat

/-- Claim C3's description amended at its first case only: for
`d ≤ min_distance` the function returns `0`, not `2^0 = 1` (the rest of the
claim is as stated). -/
def adaptiveSpacingAmended (p : Params) (d : ℝ) : ℕ∞ :=
  if d ≤ p.min_distance then 0
  else if p.surface_distance < d then ⊤
  else
    let normalized := min 1 (max 0 ((d - p.min_distance) / (p.max_distance - p.min_distance)))
    (2 : ℕ∞) ^ (⌊Real.sqrt normalized * p.density_falloff⌋ + 1).toNat

end FieldGenerator

/-- Counterexample to C3 as stated: with the default parameters and
`d = 1/1000 ≤ min_distance = 1/200`, `_get_adaptive_spacing` returns `0`,
while the claim says it returns the level-0 threshold of `1` grid unit. -/
theorem FieldGenerator.adaptive_spacing_claim_counterexample :
    FieldGenerator.getAdaptiveSpacing {} (1 / 1000) = some 0 ∧
    FieldGenerator.adaptiveSpacingClaim {} (1 / 1000) = 1 ∧
    some (0 : ℕ∞) ≠ some (1 : ℕ∞) := by
  refine ⟨?_, ?_, by simp⟩
  · rw [FieldGenerator.getAdaptiveSpacing, if_pos (by norm_num)]
  · rw [FieldGenerator.adaptiveSpacingClaim, if_pos (by norm_num)]

/-- Claim C3 (amended at the `d ≤ min_distance` case, which returns `0`
rather than a 1-grid-unit threshold): for `min_distance < max_distance` and
`density_falloff ≥ 0`, the adaptive spacing function computes, totally on
`d ≥ 0`, exactly the claimed piecewise value: `0` at/below `min_distance`,
infinity above `surface_distance`, and otherwise `2 ^ level` grid units with
`level = floor(sqrt(clamped normalized distance) * density_falloff) + 1`. -/
theorem FieldGenerator.adaptive_spacing_correct (p : FieldGenerator.Params) (d : ℝ)
    (hmm : p.min_distance < p.max_distance) (hf : 0 ≤ p.density_falloff) (hd : 0 ≤ d) :
    FieldGenerator.getAdaptiveSpacing p d =
      some (FieldGenerator.adaptiveSpacingAmended p d) := by
  by_cases h1 : d ≤ p.min_distance
  · simp [FieldGenerator.getAdaptiveSpacing, FieldGenerator.adaptiveSpacingAmended, h1]
  · by_cases h2 : p.surface_distance < d
    · simp [FieldGenerator.getAdaptiveSpacing, FieldGenerator.adaptiveSpacingAmended, h1, h2]
    · have hne : p.max_distance - p.min_distance ≠ 0 := by
        have := sub_pos.mpr hmm
        linarith
      have hinv : FieldGenerator.invMaxMinDiff p = some (1 / (p.max_distance - p.min_distance)) := by
        simp [FieldGenerator.invMaxMinDiff, hmm, hne]
      have hdiv : (d - p.min_distance) * (1 / (p.max_distance - p.min_distance)) =
          (d - p.min_distance) / (p.max_distance - p.min_distance) := by
        rw [mul_one_div]
      have hpow : 0 ≤ Real.sqrt (min 1 (max 0
          ((d - p.min_distance) / (p.max_distance - p.min_distance)))) * p.density_falloff :=
        mul_nonneg (Real.sqrt_nonneg _) hf
      have hlev : pyInt (Real.sqrt (min 1 (max 0
          ((d - p.min_distance) / (p.max_distance - p.min_distance)))) * p.density_falloff + 1) =
          ⌊Real.sqrt (min 1 (max 0
            ((d - p.min_distance) / (p.max_distance - p.min_distance)))) * p.density_falloff⌋ + 1 := by
        rw [pyInt, if_pos (by linarith)]
        exact_mod_cast Int.floor_add_one _
      have hge : 0 ≤ ⌊Real.sqrt (min 1 (max 0
          ((d - p.min_distance) / (p.max_distance - p.min_distance)))) * p.density_falloff⌋ + 1 := by
        have := Int.floor_nonneg.mpr hpow
        omega
      simp only [FieldGenerator.getAdaptiveSpacing, FieldGenerator.adaptiveSpacingAmended,
        h1, h2, if_false, hinv, hdiv, hlev]
      rw [if_neg (by omega)]

/-- Witness for C3 at the default parameters and `d = 1/1000`. -/
theorem FieldGenerator.adaptive_spacing_correct_witness :
    (({} : FieldGenerator.Params).min_distance < ({} : FieldGenerator.Params).max_distance ∧
      0 ≤ ({} : FieldGenerator.Params).density_falloff ∧ (0 : ℝ) ≤ 1 / 1000) ∧
    FieldGenerator.getAdaptiveSpacing {} (1 / 1000) =
      some (FieldGenerator.adaptiveSpacingAmended {} (1 / 1000)) := by
  refine ⟨⟨by norm_num, by norm_num, by norm_num⟩, ?_⟩
  exact FieldGenerator.adaptive_spacing_correct {} (1 / 1000)
    (by norm_num) (by norm_num) (by norm_num)

/-- The parameter record of the C10 counterexample: a negative
`density_falloff`. -/
def p10 : FieldGenerator.Params :=
  { base_grid_spacing := 1, surface_distance := 1, max_distance := 1,
    min_distance := 0, density_falloff := -4 }

/-- Counterexample to C10 as stated: `_get_adaptive_spacing` is not total
for every parameter dictionary. With `density_falloff = -4`,
`min_distance = 0`, `max_distance = 1`, `surface_distance = 1` and
`d = 1/4 ≥ 0`, the computed level is `int(sqrt(1/4) * (-4) + 1) = -1` and
`1 << -1` raises `ValueError` (modelled by `none`). -/
theorem FieldGenerator.adaptive_spacing_total_counterexample :
    (0 : ℝ) ≤ 1 / 4 ∧ FieldGenerator.getAdaptiveSpacing p10 (1 / 4) = none := by
  refine ⟨by norm_num, ?_⟩
  have h1 : ¬ ((1 / 4 : ℝ) ≤ p10.min_distance) := by norm_num [p10]
  have h2 : ¬ (p10.surface_distance < (1 / 4 : ℝ)) := by norm_num [p10]
  have hinv : FieldGenerator.invMaxMinDiff p10 = some 1 := by
    norm_num [FieldGenerator.invMaxMinDiff, p10]
  have hclamp : min 1 (max 0 ((1 / 4 - p10.min_distance) * 1)) = (1 / 4 : ℝ) := by
    norm_num [p10]
  have hsqrt : Real.sqrt (1 / 4) = 1 / 2 := by
    rw [show (1 / 4 : ℝ) = (1 / 2) ^ 2 by norm_num, Real.sqrt_sq (by norm_num)]
  have hlev : pyInt (Real.sqrt (1 / 4) * p10.density_falloff + 1) = -1 := by
    rw [hsqrt, pyInt, if_neg (by norm_num [p10])]
    rw [show (1 / 2 : ℝ) * p10.density_falloff + 1 = ((-1 : ℤ) : ℝ) by norm_num [p10]]
    exact Int.ceil_intCast _
  simp only [FieldGenerator.getAdaptiveSpacing, h1, h2, if_false, hinv, hclamp, hlev]
  norm_num

/-- Claim C10 (amended: totality needs a non-negative `density_falloff`;
with a negative one the shift `1 << level` can raise): the normalization
cache never divides by zero (the `max > min` guard), and for every parameter
record with `density_falloff ≥ 0` the adaptive spacing function is total on
distances `d ≥ 0` — the clamp to `[0,1]` happens before the square root and
the computed level is never negative. -/
theorem FieldGenerator.adaptive_spacing_total (p : FieldGenerator.Params) :
    (FieldGenerator.invMaxMinDiff p).isSome = true ∧
    (0 ≤ p.density_falloff → ∀ d, 0 ≤ d →
      (FieldGenerator.getAdaptiveSpacing p d).isSome = true) := by
  constructor
  · by_cases hmm : p.min_distance < p.max_distance
    · have hne : p.max_distance - p.min_distance ≠ 0 := by
        have := sub_pos.mpr hmm
        linarith
      simp [FieldGenerator.invMaxMinDiff, hmm, hne]
    · simp [FieldGenerator.invMaxMinDiff, hmm]
  · intro hf d hd
    by_cases h1 : d ≤ p.min_distance
    · simp [FieldGenerator.getAdaptiveSpacing, h1]
    · by_cases h2 : p.surface_distance < d
      · simp [FieldGenerator.getAdaptiveSpacing, h1, h2]
      · rcases hiv : FieldGenerator.invMaxMinDiff p with _ | inv
        · exfalso
          by_cases hmm : p.min_distance < p.max_distance
          · have hne : p.max_distance - p.min_distance ≠ 0 := by
              have := sub_pos.mpr hmm
              linarith
            rw [FieldGenerator.invMaxMinDiff, if_pos hmm, if_neg hne] at hiv
            cases hiv
          · rw [FieldGenerator.invMaxMinDiff, if_neg hmm] at hiv
            cases hiv
        · have hpow : 0 ≤ Real.sqrt (min 1 (max 0 ((d - p.min_distance) * inv))) *
              p.density_falloff := mul_nonneg (Real.sqrt_nonneg _) hf
          have hlev : ¬ (pyInt (Real.sqrt (min 1 (max 0 ((d - p.min_distance) * inv))) *
              p.density_falloff + 1) < 0) := by
            rw [pyInt, if_pos (by linarith)]
            have := Int.floor_nonneg.mpr (by linarith :
              (0:ℝ) ≤ Real.sqrt (min 1 (max 0 ((d - p.min_distance) * inv))) *
                p.density_falloff + 1)
            omega
          simp [FieldGenerator.getAdaptiveSpacing, h1, h2, hiv, hlev]

/-- Witness for C10 at the default parameters and `d = 1/1000`. -/
theorem FieldGenerator.adaptive_spacing_total_witness :
    (0 ≤ ({} : FieldGenerator.Params).density_falloff ∧ (0 : ℝ) ≤ 1 / 1000) ∧
    (FieldGenerator.getAdaptiveSpacing {} (1 / 1000)).isSome = true := by
  refine ⟨⟨by norm_num, by norm_num⟩, ?_⟩
  exact (FieldGenerator.adaptive_spacing_total {}).2 (by norm_num) (1 / 1000) (by norm_num)

namespace FieldGenerator

/-- The 8 corner points (`check_points`) of a cell, in the source's
`dx → dy → dz` loop order; `cellSize` is in grid units, one grid unit being
`base_grid_spacing` world units. -/
def cellCheckPoints (bs x y z : ℝ) (cellSize : ℕ) : List V3 :=
  ([0, 1] : List ℝ).flatMap fun dx =>
    ([0, 1] : List ℝ).flatMap fun dy =>
      ([0, 1] : List ℝ).map fun dz =>
        ![x + dx * cellSize * bs, y + dy * cellSize * bs, z + dz * cellSize * bs]

/-- `FieldGenerator._process_cell`, state-passing: `acc` is the current
`self.generated_points`, `d` is the spatial index's batched nearest-distance
query (`self.spatial.find_nearest`). A `some` result is the updated list; a
`none` propagates the exception `_get_adaptive_spacing` can raise. The
recursion into 8 half-size octants follows the source's `dx → dy → dz`
order and happens only while `cell_size > adaptive_spacing`, the depth cap
`level < max_level` holds and the half size is positive. -/
def processCell (p : Params) (d : V3 → ℝ) (x y z : ℝ)
    (cellSize : ℕ) (level maxLevel : ℕ) (acc : List V3) : Option (List V3) :=
  let dists := (cellCheckPoints p.base_grid_spacing x y z cellSize).map d
  let minDistInCell := minD dists
  if p.surface_distance < minDistInCell then some acc
  else
    match getAdaptiveSpacing p minDistInCell with
    | none => none
    | some adaptiveSpacing =>
      if h : adaptiveSpacing < (cellSize : ℕ∞) ∧ level < maxLevel then
        if 0 < cellSize / 2 then do
          let a1 ← processCell p d x y z
            (cellSize / 2) (level + 1) maxLevel acc
          let a2 ← processCell p d x y (z + (cellSize / 2) * p.base_grid_spacing)
            (cellSize / 2) (level + 1) maxLevel a1
          let a3 ← processCell p d x (y + (cellSize / 2) * p.base_grid_spacing) z
            (cellSize / 2) (level + 1) maxLevel a2
          let a4 ← processCell p d x (y + (cellSize / 2) * p.base_grid_spacing)
            (z + (cellSize / 2) * p.base_grid_spacing) (cellSize / 2) (level + 1) maxLevel a3
          let a5 ← processCell p d (x + (cellSize / 2) * p.base_grid_spacing) y z
            (cellSize / 2) (level + 1) maxLevel a4
          let a6 ← processCell p d (x + (cellSize / 2) * p.base_grid_spacing) y
            (z + (cellSize / 2) * p.base_grid_spacing) (cellSize / 2) (level + 1) maxLevel a5
          let a7 ← processCell p d (x + (cellSize / 2) * p.base_grid_spacing)
            (y + (cellSize / 2) * p.base_grid_spacing) z (cellSize / 2) (level + 1) maxLevel a6
          processCell p d (x + (cellSize / 2) * p.base_grid_spacing)
            (y + (cellSize / 2) * p.base_grid_spacing) (z + (cellSize / 2) * p.base_grid_spacing)
            (cellSize / 2) (level + 1) maxLevel a7
        else some acc
      else
        if d ![x + (cellSize * p.base_grid_spacing) / 2,
               y + (cellSize * p.base_grid_spacing) / 2,
               z + (cellSize * p.base_grid_spacing) / 2] ≤ p.surface_distance then
          some (acc ++ [![x + (cellSize * p.base_grid_spacing) / 2,
                          y + (cellSize * p.base_grid_spacing) / 2,
                          z + (cellSize * p.base_grid_spacing) / 2]])
        else some acc
termination_by maxLevel - level
decreasing_by all_goals (have h2 := h.2; omega)

/-- Python `range(0, stop, step)` for `step ≥ 1`: the multiples of `step`
that are `≥ 0` and `< stop`, in order. -/
def pyRange (stop : ℤ) (step : ℕ) : List ℤ :=
  (List.range (if stop ≤ 0 then 0 else (stop.toNat + step - 1) / step)).map
    (fun k => (k : ℤ) * step)

/-- `FieldGenerator.generate`'s computation: scan the bounding box with root
cells of `2^max_level` grid units (z outer, y middle, x inner) and recurse
into each. `none` models a raised exception: `1 << max_level` with the
negative `max_level = int(density_falloff + 1)`, or the `ZeroDivisionError`
of `dimensions / base_grid_spacing` when `base_grid_spacing == 0`. -/
def generateRun (p : Params) (d : V3 → ℝ) (boundsMin boundsMax : V3) :
    Option (List V3) :=
  let maxLevelI := pyInt (p.density_falloff + 1)
  if maxLevelI < 0 then none
  else
    let maxLevel := maxLevelI.toNat
    let initialCellSize : ℕ := 2 ^ maxLevel
    if p.base_grid_spacing = 0 then none
    else
      let steps : Fin 3 → ℤ := fun c =>
        ⌈(boundsMax c - boundsMin c) / p.base_grid_spacing⌉ + 1
      let cells :=
        (pyRange (steps 2) initialCellSize).flatMap fun zi =>
          (pyRange (steps 1) initialCellSize).flatMap fun yi =>
            (pyRange (steps 0) initialCellSize).map fun xi =>
              (boundsMin 0 + (xi : ℝ) * p.base_grid_spacing,
               boundsMin 1 + (yi : ℝ) * p.base_grid_spacing,
               boundsMin 2 + (zi : ℝ) * p.base_grid_spacing)
      cells.foldlM
        (fun acc c => processCell p d c.1 c.2.1 c.2.2 initialCellSize 0 maxLevel acc) []

/-- A `FieldGenerator` instance: the configuration and spatial index given
to `__init__`, plus the two mutable fields. `spacing_cache` is assigned
(`{}`) but never read by the source; it is modelled by its value. -/
structure Instance where
  params : Params
  spatial : V3 → ℝ
  spacing_cache : List (ℝ × ℕ∞) := []
  generated_points : List V3 := []

/-- `FieldGenerator.generate` as a state transformer on the instance: it
resets `generated_points` and `spacing_cache` first, then runs the scan and
stores and returns the produced points (`none` = exception raised after the
resets). -/
def generateM (g : Instance) (boundsMin boundsMax : V3) :
    Instance × Option (List V3) :=
  match generateRun g.params g.spatial boundsMin boundsMax with
  | none => ({ g with generated_points := [], spacing_cache := [] }, none)
  | some pts => ({ g with generated_points := pts, spacing_cache := [] }, some pts)

end FieldGenerator

/-- Every point appended by `_process_cell` passed the final center distance
check; the invariant `d q ≤ surface_distance` over the accumulated list is
preserved. `n` bounds the remaining recursion depth. -/
theorem FieldGenerator.processCell_surface_bound (p : FieldGenerator.Params)
    (d : V3 → ℝ) (maxLevel : ℕ) :
    ∀ n x y z cellSize level acc res, maxLevel - level ≤ n →
      FieldGenerator.processCell p d x y z cellSize level maxLevel acc = some res →
      (∀ q ∈ acc, d q ≤ p.surface_distance) →
      ∀ q ∈ res, d q ≤ p.surface_distance := by
  intro n
  induction n with
  | zero =>
    intro x y z cellSize level acc res hgap hrun hacc
    rw [FieldGenerator.processCell] at hrun
    split at hrun
    · cases hrun
      exact hacc
    · split at hrun
      · cases hrun
      · split at hrun
        next h =>
          exact absurd h.2 (by omega)
        next h =>
          split at hrun
          · cases hrun
            intro q hq
            rcases List.mem_append.mp hq with hq | hq
            · exact hacc q hq
            · rw [List.mem_singleton.mp hq]
              assumption
          · cases hrun
            exact hacc
  | succ m ih =>
    intro x y z cellSize level acc res hgap hrun hacc
    rw [FieldGenerator.processCell] at hrun
    split at hrun
    · cases hrun
      exact hacc
    · split at hrun
      · cases hrun
      · split at hrun
        next h =>
          split at hrun
          · have hgap1 : maxLevel - (level + 1) ≤ m := by omega
            simp only [bind, Option.bind_eq_some] at hrun
            obtain ⟨a1, h1, a2, h2, a3, h3, a4, h4, a5, h5, a6, h6, a7, h7, h8⟩ := hrun
            exact ih _ _ _ _ _ _ _ hgap1 h8
              (ih _ _ _ _ _ _ _ hgap1 h7
                (ih _ _ _ _ _ _ _ hgap1 h6
                  (ih _ _ _ _ _ _ _ hgap1 h5
                    (ih _ _ _ _ _ _ _ hgap1 h4
                      (ih _ _ _ _ _ _ _ hgap1 h3
                        (ih _ _ _ _ _ _ _ hgap1 h2
                          (ih _ _ _ _ _ _ _ hgap1 h1 hacc)))))))
          · cases hrun
            exact hacc
        next h =>
          split at hrun
          · cases hrun
            intro q hq
            rcases List.mem_append.mp hq with hq | hq
            · exact hacc q hq
            · rw [List.mem_singleton.mp hq]
              assumption
          · cases hrun
            exact hacc

/-- An `Option`-valued left fold preserves an invariant its step preserves. -/
theorem foldlM_option_preserve {α β : Type} (f : β → α → Option β) (Q : β → Prop)
    (hf : ∀ b a b', f b a = some b' → Q b → Q b') :
    ∀ (l : List α) (b b' : β), List.foldlM f b l = some b' → Q b → Q b' := by
  intro l
  induction l with
  | nil =>
    intro b b' h hb
    cases h
    exact hb
  | cons a as ih =>
    intro b b' h hb
    rw [List.foldlM_cons] at h
    simp only [bind, Option.bind_eq_some] at h
    obtain ⟨b1, h1, h2⟩ := h
    exact ih b1 b' h2 (hf b a b1 h1 hb)

/-- Claim C4: for every parameter record, every nearest-distance oracle and
every bounding box, each point of a successfully generated field has
nearest-surface distance (as reported by the index the generator was
constructed with) at most `surface_distance` — a cell center is emitted only
after the final distance check at that exact center passes. -/
theorem FieldGenerator.generate_surface_containment
    (p : FieldGenerator.Params) (d : V3 → ℝ) (bmin bmax : V3) (pts : List V3)
    (hgen : FieldGenerator.generateRun p d bmin bmax = some pts) :
    ∀ q ∈ pts, d q ≤ p.surface_distance := by
  rw [FieldGenerator.generateRun] at hgen
  split at hgen
  · cases hgen
  · split at hgen
    · cases hgen
    · exact foldlM_option_preserve _ (fun acc => ∀ q ∈ acc, d q ≤ p.surface_distance)
        (fun acc c res hstep hq =>
          FieldGenerator.processCell_surface_bound p d _ _ _ _ _ _ _ _ _
            (le_refl _) hstep hq)
        _ [] pts hgen (by simp)

/-- Parameters of the C4 witness instance: unit grid spacing and surface
distance; `density_falloff = -1` makes `max_level = 0`, so the root cell is
one grid unit and is emitted directly. -/
def p4 : FieldGenerator.Params :=
  { base_grid_spacing := 1, surface_distance := 1, max_distance := 1,
    min_distance := 0, density_falloff := -1 }

/-- The everywhere-zero distance oracle. -/
def d0 : V3 → ℝ := fun _ => 0

/-- The single point the C4 witness run generates: the root cell's center. -/
def c4pt : V3 := ![(1 : ℝ) / 2, 1 / 2, 1 / 2]

/-- Concrete evaluation: over the degenerate box at the origin the witness
run emits exactly the root cell center. -/
theorem generateRun_p4_eval :
    FieldGenerator.generateRun p4 d0 pt0 pt0 = some [c4pt] := by
  have hml : pyInt (p4.density_falloff + 1) = 0 := by
    rw [show p4.density_falloff + 1 = (0 : ℝ) by norm_num [p4]]
    rw [pyInt, if_pos le_rfl]
    exact Int.floor_zero
  have hcell0 : FieldGenerator.processCell p4 d0 0 0 0 1 0 0 [] = some [c4pt] := by
    rw [FieldGenerator.processCell]
    have hmin : minD ((FieldGenerator.cellCheckPoints p4.base_grid_spacing
        (0 : ℝ) (0 : ℝ) (0 : ℝ) 1).map d0) = 0 := by
      simp [FieldGenerator.cellCheckPoints, d0, minD]
    rw [hmin]
    rw [if_neg (by norm_num [p4])]
    have hspace : FieldGenerator.getAdaptiveSpacing p4 (0 : ℝ) = some 0 := by
      rw [FieldGenerator.getAdaptiveSpacing, if_pos (by norm_num [p4])]
    rw [hspace]
    norm_num [d0, p4]
    funext i
    fin_cases i <;> norm_num [c4pt]
  have hb : p4.base_grid_spacing = 1 := rfl
  have hr1 : List.range 1 = [0] := rfl
  rw [FieldGenerator.generateRun, hml]
  norm_num [pt0, hb, FieldGenerator.pyRange, Int.toNat_zero, hr1,
    List.flatMap_cons, List.flatMap_nil, List.map_cons, List.map_nil,
    List.foldlM_cons, List.foldlM_nil, bind_pure]
  exact hcell0

/-- Witness for C4: the concrete run generates one point and that point's
reported distance is within `surface_distance`. -/
theorem FieldGenerator.generate_surface_containment_witness :
    FieldGenerator.generateRun p4 d0 pt0 pt0 = some [c4pt] ∧
    d0 c4pt ≤ p4.surface_distance := by
  refine ⟨generateRun_p4_eval, ?_⟩
  exact FieldGenerator.generate_surface_containment p4 d0 pt0 pt0 [c4pt]
    generateRun_p4_eval c4pt (by simp)

/-- Claim C9: `generate` resets the output list at the start of every call:
the returned point set depends only on the instance's configuration and
spatial index, never on previously accumulated `generated_points` (so two
consecutive calls with the same bounds return equal point sets and nothing
accumulates), and a second identical call leaves the instance state exactly
unchanged. -/
theorem FieldGenerator.generate_stateless (g g' : FieldGenerator.Instance)
    (bmin bmax : V3) (hp : g'.params = g.params) (hs : g'.spatial = g.spatial) :
    FieldGenerator.generateM ((FieldGenerator.generateM g bmin bmax).1) bmin bmax =
      FieldGenerator.generateM g bmin bmax ∧
    (FieldGenerator.generateM g' bmin bmax).2 = (FieldGenerator.generateM g bmin bmax).2 := by
  cases hres : FieldGenerator.generateRun g.params g.spatial bmin bmax with
  | none =>
    constructor
    · simp [FieldGenerator.generateM, hres]
    · simp [FieldGenerator.generateM, hres, hp, hs]
  | some pts =>
    constructor
    · simp [FieldGenerator.generateM, hres]
    · simp [FieldGenerator.generateM, hres, hp, hs]

/-- A fresh witness instance for C9. -/
def gW : FieldGenerator.Instance :=
  { params := {}, spatial := fun _ => 0 }

/-- The same configuration with a stale point left in `generated_points`. -/
def gW' : FieldGenerator.Instance :=
  { params := {}, spatial := fun _ => 0, generated_points := [pt0] }

/-- Witness for C9: the stale accumulated point does not affect the result. -/
theorem FieldGenerator.generate_stateless_witness :
    (gW'.params = gW.params ∧ gW'.spatial = gW.spatial) ∧
    (FieldGenerator.generateM gW' pt0 pt0).2 = (FieldGenerator.generateM gW pt0 pt0).2 := by
  exact ⟨⟨rfl, rfl⟩, (FieldGenerator.generate_stateless gW gW' pt0 pt0 rfl rfl).2⟩

/-- A fold of `min` over non-negative reals stays non-negative. -/
theorem minD_nonneg : ∀ l : List ℝ, (∀ x ∈ l, 0 ≤ x) → 0 ≤ minD l := by
  have key : ∀ (xs : List ℝ) (x : ℝ), 0 ≤ x → (∀ y ∈ xs, 0 ≤ y) → 0 ≤ xs.foldl min x := by
    intro xs
    induction xs with
    | nil => intro x hx _; exact hx
    | cons a as ih =>
      intro x hx hall
      rw [List.foldl_cons]
      exact ih (min x a) (le_min hx (hall a (by simp))) (fun y hy => hall y (by simp [hy]))
  intro l hl
  cases l with
  | nil => exact le_refl 0
  | cons x xs => exact key xs x (hl x (by simp)) (fun y hy => hl y (by simp [hy]))

namespace DeformationPipeline

/-- Coordinate-wise `np.min(verts, axis=0)` over a nonempty vertex list. -/
def coordMin (v : V3) (vs : List V3) : V3 :=
  fun c => vs.foldl (fun a w => min a (w c)) (v c)

/-- Coordinate-wise `np.max(verts, axis=0)` over a nonempty vertex list. -/
def coordMax (v : V3) (vs : List V3) : V3 :=
  fun c => vs.foldl (fun a w => max a (w c)) (v c)

/-- The bake-stage output record
`{'field_points': ..., 'field_displacements': ...}`. -/
structure FieldData where
  field_points : List V3
  field_displacements : List (List ℝ)

/-- `DeformationPipeline.bake_field`: pad the bounding box of the basis mesh
by `bbox_margin`, generate the field over it with a SpatialIndex on the
basis vertices, fail hard when no points were generated, then fit the first
RBF (basis → deformed) and evaluate it at the field points. The linear
solver backends are passed through to `RBFCore.fit`. An empty basis errors
(`np.min` of an empty array); a `none` from the generator propagates as the
corresponding raised exception. -/
def bake_field (solveFn : List (List ℝ) → List (List ℝ) → Option (List (List ℝ)))
    (lstsqFn : List (List ℝ) → List (List ℝ) → List (List ℝ))
    (params : FieldGenerator.Params) (basis deformed : List V3) :
    Except String FieldData :=
  match basis with
  | [] => .error "zero-size array to reduction operation minimum"
  | v :: vs =>
    match FieldGenerator.generateRun params (SpatialUtils.nearestDist (v :: vs))
        (fun c => coordMin v vs c - params.bbox_margin)
        (fun c => coordMax v vs c + params.bbox_margin) with
    | none => .error "field generation raised"
    | some fieldPoints =>
      if fieldPoints.length = 0 then
        .error "No field points generated. Check params or mesh size."
      else
        match RBFCore.predict (RBFCore.fit solveFn lstsqFn
            (RBFCore.init params.rbf_epsilon params.rbf_smoothing) (v :: vs) deformed)
            fieldPoints with
        | .error e => .error e
        | .ok r => .ok { field_points := fieldPoints, field_displacements := r.2 }

end DeformationPipeline

/-- Claim C5: over the margin-padded bounding box of a (nonempty) basis
mesh, if the field generator yields zero points then `bake_field` raises the
hard "no field points" error; if it yields at least one point, `bake_field`
returns a record containing exactly those `field_points` together with
`field_displacements`, the displacement output of the first RBF fit
(basis → deformed) evaluated at the field points. -/
theorem DeformationPipeline.bake_field_spec
    (solveFn : List (List ℝ) → List (List ℝ) → Option (List (List ℝ)))
    (lstsqFn : List (List ℝ) → List (List ℝ) → List (List ℝ))
    (params : FieldGenerator.Params) (v : V3) (vs deformed : List V3) :
    (FieldGenerator.generateRun params (SpatialUtils.nearestDist (v :: vs))
        (fun c => DeformationPipeline.coordMin v vs c - params.bbox_margin)
        (fun c => DeformationPipeline.coordMax v vs c + params.bbox_margin) = some [] →
      DeformationPipeline.bake_field solveFn lstsqFn params (v :: vs) deformed =
        .error "No field points generated. Check params or mesh size.") ∧
    (∀ pts, FieldGenerator.generateRun params (SpatialUtils.nearestDist (v :: vs))
        (fun c => DeformationPipeline.coordMin v vs c - params.bbox_margin)
        (fun c => DeformationPipeline.coordMax v vs c + params.bbox_margin) = some pts →
      pts ≠ [] →
      ∃ r, RBFCore.predict (RBFCore.fit solveFn lstsqFn
          (RBFCore.init params.rbf_epsilon params.rbf_smoothing) (v :: vs) deformed) pts =
            Except.ok r ∧
        DeformationPipeline.bake_field solveFn lstsqFn params (v :: vs) deformed =
          Except.ok { field_points := pts, field_displacements := r.2 }) := by
  constructor
  · intro hgen
    simp only [DeformationPipeline.bake_field]
    rw [hgen]
    simp
  · intro pts hgen hne
    refine ⟨_, rfl, ?_⟩
    simp only [DeformationPipeline.bake_field]
    rw [hgen]
    have hlen : ¬ (pts.length = 0) := by simpa using hne
    simp only [hlen, if_false]
    rfl

/-- Parameters of the C5 witness: a negative `surface_distance`, so every
cell is pruned and the generated field is empty. -/
def p5 : FieldGenerator.Params :=
  { base_grid_spacing := 1, surface_distance := -1, max_distance := 1,
    min_distance := 0, density_falloff := -1, bbox_margin := 0 }

/-- With `p5`, every cell is pruned immediately: the corner distances are
non-negative and the surface threshold is `-1`. -/
theorem processCell_p5 (x y z : ℝ) (cs lvl ml : ℕ) (acc : List V3) :
    FieldGenerator.processCell p5 (SpatialUtils.nearestDist [pt0]) x y z cs lvl ml acc =
      some acc := by
  rw [FieldGenerator.processCell]
  have hnn : 0 ≤ minD ((FieldGenerator.cellCheckPoints p5.base_grid_spacing x y z cs).map
      (SpatialUtils.nearestDist [pt0])) := by
    apply minD_nonneg
    intro w hw
    simp only [List.mem_map] at hw
    obtain ⟨q, _, rfl⟩ := hw
    simp only [SpatialUtils.nearestDist, minD, List.map_cons, List.map_nil, List.foldl_nil]
    exact Real.sqrt_nonneg _
  rw [if_pos (lt_of_lt_of_le (by norm_num [p5]) hnn)]

/-- An `Option` fold whose step never changes the state returns it. -/
theorem foldlM_const {α β : Type} (f : β → α → Option β) (hf : ∀ b a, f b a = some b) :
    ∀ (l : List α) (b : β), List.foldlM f b l = some b := by
  intro l
  induction l with
  | nil => intro b; rfl
  | cons a as ih =>
    intro b
    rw [List.foldlM_cons, hf b a]
    exact ih b

/-- With `p5` the generator returns an empty field over any bounds. -/
theorem generateRun_p5_empty (bmin bmax : V3) :
    FieldGenerator.generateRun p5 (SpatialUtils.nearestDist [pt0]) bmin bmax = some [] := by
  have hml : pyInt (p5.density_falloff + 1) = 0 := by
    rw [show p5.density_falloff + 1 = (0 : ℝ) by norm_num [p5]]
    rw [pyInt, if_pos le_rfl]
    exact Int.floor_zero
  rw [FieldGenerator.generateRun, hml]
  rw [if_neg (by norm_num)]
  rw [if_neg (by norm_num [p5])]
  exact foldlM_const _
    (fun (b : List V3) (a : ℝ × ℝ × ℝ) => processCell_p5 a.1 a.2.1 a.2.2 _ 0 _ b) _ []

/-- Witness for C5: with the pruning parameters the generated field is empty
and `bake_field` raises the hard error. -/
theorem DeformationPipeline.bake_field_spec_witness :
    FieldGenerator.generateRun p5 (SpatialUtils.nearestDist [pt0])
      (fun c => DeformationPipeline.coordMin pt0 [] c - p5.bbox_margin)
      (fun c => DeformationPipeline.coordMax pt0 [] c + p5.bbox_margin) = some [] ∧
    DeformationPipeline.bake_field solveNone lstsqZero p5 [pt0] [pt0] =
      Except.error "No field points generated. Check params or mesh size." := by
  have hgen := generateRun_p5_empty
    (fun c => DeformationPipeline.coordMin pt0 [] c - p5.bbox_margin)
    (fun c => DeformationPipeline.coordMax pt0 [] c + p5.bbox_margin)
  exact ⟨hgen,
    (DeformationPipeline.bake_field_spec solveNone lstsqZero p5 pt0 [] [pt0]).1 hgen⟩

end
